import Mathlib

/-!
Verification of the travel-feed service (src/app.py) against its
natural-language specification.

The embedding below translates the parts of `app.py` that the claims
touch into Lean: the JSON document store over blob storage is modelled
as an `Option (List RawPost)` (the blob is absent, or holds a decoded
JSON array of records), Python `datetime` values as a six-field record
compared lexicographically, Python string parsing (`strptime`,
`fromisoformat`, `float`) as character-level parsers returning `Option`,
and each Flask handler as a pure function from its form inputs and the
current store contents to an outcome.
-/

namespace TravelFeed

/-! ## Characters and digits -/

/-- The character for a single decimal digit (`0 ≤ n ≤ 9`). -/
def digitChar (n : Nat) : Char := Char.ofNat (48 + n)

/-- Numeric value of a decimal digit character. -/
def charVal (c : Char) : Nat := c.toNat - 48

theorem isDigit_digitChar {n : Nat} (h : n ≤ 9) : (digitChar n).isDigit = true := by
  interval_cases n <;> decide

theorem charVal_digitChar {n : Nat} (h : n ≤ 9) : charVal (digitChar n) = n := by
  interval_cases n <;> decide

/-! ## The datetime model

Python `datetime.datetime` restricted to whole seconds (the service
never produces sub-second timestamps: `strptime` with format
`%Y-%m-%d %H:%M` yields second 0, and stored strings are re-parsed from
the service's own output). Comparison is lexicographic on
(year, month, day, hour, minute, second), as for Python datetimes. -/

structure DateTime where
  year : Nat
  month : Nat
  day : Nat
  hour : Nat
  minute : Nat
  second : Nat
deriving DecidableEq, Repr

def DateTime.fields (d : DateTime) : List Nat :=
  [d.year, d.month, d.day, d.hour, d.minute, d.second]

theorem DateTime.fields_inj {a b : DateTime} (h : a.fields = b.fields) : a = b := by
  cases a; cases b; simp [DateTime.fields] at h
  obtain ⟨h1, h2, h3, h4, h5, h6⟩ := h
  subst h1; subst h2; subst h3; subst h4; subst h5; subst h6; rfl

/-- Lexicographic strict comparison of equal-length Nat tuples, as Python
compares datetime objects. -/
def lexLt : List Nat → List Nat → Bool
  | [], [] => false
  | [], _ :: _ => true
  | _ :: _, [] => false
  | a :: as, b :: bs => if a < b then true else if b < a then false else lexLt as bs

theorem lexLt_irrefl (l : List Nat) : lexLt l l = false := by
  induction l with
  | nil => rfl
  | cons a as ih => simp [lexLt, ih]

theorem lexLt_asymm {a b : List Nat} (h : lexLt a b = true) : lexLt b a = false := by
  induction a generalizing b with
  | nil =>
    cases b with
    | nil => simp [lexLt] at h
    | cons y ys => simp [lexLt]
  | cons x xs ih =>
    cases b with
    | nil => simp [lexLt] at h
    | cons y ys =>
      simp only [lexLt] at h ⊢
      rcases Nat.lt_trichotomy x y with hlt | heq | hgt
      · simp [hlt, Nat.not_lt_of_lt hlt]
      · subst heq
        simp only [Nat.lt_irrefl, if_false] at h ⊢
        exact ih h
      · simp [hgt, Nat.not_lt_of_lt hgt] at h

theorem lexLt_trans {a b c : List Nat} (h1 : lexLt a b = true) (h2 : lexLt b c = true) :
    lexLt a c = true := by
  induction a generalizing b c with
  | nil =>
    cases c with
    | nil =>
      cases b with
      | nil => simp [lexLt] at h1
      | cons y ys => simp [lexLt] at h2
    | cons z zs => simp [lexLt]
  | cons x xs ih =>
    cases b with
    | nil => simp [lexLt] at h1
    | cons y ys =>
      cases c with
      | nil => simp [lexLt] at h2
      | cons z zs =>
        simp only [lexLt] at h1 h2 ⊢
        rcases Nat.lt_trichotomy x y with hxy | hxy | hxy
        · rcases Nat.lt_trichotomy y z with hyz | hyz | hyz
          · simp [Nat.lt_trans hxy hyz]
          · subst hyz; simp [hxy]
          · simp [hyz, Nat.not_lt_of_lt hyz] at h2
        · subst hxy
          simp only [Nat.lt_irrefl, if_false] at h1
          rcases Nat.lt_trichotomy x z with hyz | hyz | hyz
          · simp [hyz]
          · subst hyz
            simp only [Nat.lt_irrefl, if_false] at h2 ⊢
            exact ih h1 h2
          · simp [hyz, Nat.not_lt_of_lt hyz] at h2
        · simp [hxy, Nat.not_lt_of_lt hxy] at h1

theorem lexLt_negTrans {a b c : List Nat} (h1 : lexLt a b = false) (h2 : lexLt b c = false) :
    lexLt a c = false := by
  induction a generalizing b c with
  | nil =>
    cases b with
    | nil =>
      cases c with
      | nil => rfl
      | cons z zs => simp [lexLt] at h2
    | cons y ys => simp [lexLt] at h1
  | cons x xs ih =>
    cases c with
    | nil => rfl
    | cons z zs =>
      cases b with
      | nil => simp [lexLt] at h2
      | cons y ys =>
        simp only [lexLt] at h1 h2 ⊢
        rcases Nat.lt_trichotomy x y with hxy | hxy | hxy
        · simp [hxy] at h1
        · subst hxy
          simp only [Nat.lt_irrefl, if_false] at h1
          rcases Nat.lt_trichotomy x z with hyz | hyz | hyz
          · simp [hyz] at h2
          · subst hyz
            simp only [Nat.lt_irrefl, if_false] at h2 ⊢
            exact ih h1 h2
          · simp [hyz, Nat.not_lt_of_lt hyz]
        · rcases Nat.lt_trichotomy y z with hyz | hyz | hyz
          · simp [hyz] at h2
          · subst hyz; simp [hxy, Nat.not_lt_of_lt hxy]
          · have hxz : z < x := Nat.lt_trans hyz hxy
            simp [hxz, Nat.not_lt_of_lt hxz]

theorem lexLt_connex {a b : List Nat} (hlen : a.length = b.length) (hne : a ≠ b) :
    lexLt a b = true ∨ lexLt b a = true := by
  induction a generalizing b with
  | nil =>
    cases b with
    | nil => exact absurd rfl hne
    | cons y ys => simp at hlen
  | cons x xs ih =>
    cases b with
    | nil => simp at hlen
    | cons y ys =>
      rcases Nat.lt_trichotomy x y with hxy | hxy | hxy
      · left; simp [lexLt, hxy]
      · subst hxy
        have hne2 : xs ≠ ys := by
          intro h; exact hne (by rw [h])
        have := ih (by simpa using hlen) hne2
        simpa [lexLt] using this
      · right; simp [lexLt, hxy, Nat.not_lt_of_lt hxy]

/-- Python `a < b` on datetime objects. -/
def dtLt (a b : DateTime) : Bool := lexLt a.fields b.fields

theorem dtLt_asymm {a b : DateTime} (h : dtLt a b = true) : dtLt b a = false :=
  lexLt_asymm h

theorem dtLt_trans {a b c : DateTime} (h1 : dtLt a b = true) (h2 : dtLt b c = true) :
    dtLt a c = true :=
  lexLt_trans h1 h2

theorem dtLt_negTrans {a b c : DateTime} (h1 : dtLt a b = false) (h2 : dtLt b c = false) :
    dtLt a c = false :=
  lexLt_negTrans h1 h2

theorem dtLt_irrefl (a : DateTime) : dtLt a a = false := lexLt_irrefl _

theorem dtLt_connex {a b : DateTime} (hne : a ≠ b) :
    dtLt a b = true ∨ dtLt b a = true := by
  refine lexLt_connex (by simp [DateTime.fields]) ?_
  intro h
  exact hne (DateTime.fields_inj h)

/-- Gregorian month lengths, as validated by Python's `datetime` constructor. -/
def daysInMonth (y m : Nat) : Nat :=
  if m = 2 then
    if (y % 4 = 0 ∧ y % 100 ≠ 0) ∨ y % 400 = 0 then 29 else 28
  else if m = 4 ∨ m = 6 ∨ m = 9 ∨ m = 11 then 30 else 31

/-- The values representable as a Python `datetime` with a four-digit year:
exactly the values the service's parsers can produce. -/
def DateTime.Valid (d : DateTime) : Prop :=
  1 ≤ d.year ∧ d.year ≤ 9999 ∧ 1 ≤ d.month ∧ d.month ≤ 12 ∧
    1 ≤ d.day ∧ d.day ≤ daysInMonth d.year d.month ∧
    d.hour ≤ 23 ∧ d.minute ≤ 59 ∧ d.second ≤ 59

instance (d : DateTime) : Decidable d.Valid := by
  unfold DateTime.Valid; infer_instance

/-! ## Printing datetimes

`datetime.isoformat()` prints `YYYY-MM-DDTHH:MM:SS` and `str(datetime)`
prints the same with a space separator (microseconds are zero throughout
the service, so they are never printed). Fields are zero-padded. -/

/-- Two zero-padded decimal digits (`%02d` for values below 100). -/
def pad2c (n : Nat) : List Char := [digitChar (n / 10), digitChar (n % 10)]

/-- Four zero-padded decimal digits (`%04d` for values below 10000). -/
def pad4c (n : Nat) : List Char :=
  [digitChar (n / 1000), digitChar (n / 100 % 10), digitChar (n / 10 % 10), digitChar (n % 10)]

/-- The characters of `datetime` printed with separator `sep` between the
date and the time. -/
def isoChars (d : DateTime) (sep : Char) : List Char :=
  pad4c d.year ++ '-' :: pad2c d.month ++ '-' :: pad2c d.day ++
    sep :: pad2c d.hour ++ ':' :: pad2c d.minute ++ ':' :: pad2c d.second

/-- Python `datetime.isoformat()`. -/
def DateTime.isoformat (d : DateTime) : String := String.mk (isoChars d 'T')

/-- Python `str(datetime)`, the serialization `json.dumps(..., default=str)`
applies to datetime objects. -/
def DateTime.str (d : DateTime) : String := String.mk (isoChars d ' ')

/-! ## Parsing datetimes -/

/-- Exactly two digit characters. -/
def parse2 (c1 c2 : Char) : Option Nat :=
  if c1.isDigit && c2.isDigit then some (charVal c1 * 10 + charVal c2) else none

/-- Exactly four digit characters. -/
def parse4 (c1 c2 c3 c4 : Char) : Option Nat :=
  if c1.isDigit && c2.isDigit && c3.isDigit && c4.isDigit then
    some (((charVal c1 * 10 + charVal c2) * 10 + charVal c3) * 10 + charVal c4)
  else none

/-- Range and calendar checks performed by the `datetime` constructor
(`MINYEAR ≤ year`, month 1-12, day within the month). The parsers below
only feed it hour/minute/second values already in range. -/
def mkDateTime (y mo da h mi s : Nat) : Option DateTime :=
  if 1 ≤ y ∧ 1 ≤ mo ∧ mo ≤ 12 ∧ 1 ≤ da ∧ da ≤ daysInMonth y mo then
    some ⟨y, mo, da, h, mi, s⟩
  else none

/-- Python `datetime.fromisoformat` on the strings this service stores:
a `YYYY-MM-DD` date, optionally followed by one separator character (any
character, as CPython accepts) and a `HH:MM` or `HH:MM:SS` time. -/
def parseIsoChars : List Char → Option DateTime
  | y1 :: y2 :: y3 :: y4 :: '-' :: m1 :: m2 :: '-' :: d1 :: d2 :: rest =>
    match parse4 y1 y2 y3 y4, parse2 m1 m2, parse2 d1 d2 with
    | some y, some mo, some da =>
      match rest with
      | [] => mkDateTime y mo da 0 0 0
      | _sep :: h1 :: h2 :: ':' :: n1 :: n2 :: rest2 =>
        match parse2 h1 h2, parse2 n1 n2 with
        | some h, some mi =>
          if h ≤ 23 ∧ mi ≤ 59 then
            match rest2 with
            | [] => mkDateTime y mo da h mi 0
            | ':' :: s1 :: s2 :: [] =>
              match parse2 s1 s2 with
              | some s => if s ≤ 59 then mkDateTime y mo da h mi s else none
              | none => none
            | _ => none
          else none
        | _, _ => none
      | _ => none
    | _, _, _ => none
  | _ => none

def fromisoformat (s : String) : Option DateTime := parseIsoChars s.toList

/-- One strptime field of one or two digits: the two-digit reading is
taken when it is in range, otherwise the one-digit reading when that is
in range (mirroring the alternation order of CPython's field regexes,
e.g. `1[0-2]|0[1-9]|[1-9]` for `%m`). -/
def parseField (lo hi : Nat) : List Char → Option (Nat × List Char)
  | [] => none
  | [c1] =>
    if c1.isDigit ∧ lo ≤ charVal c1 ∧ charVal c1 ≤ hi then some (charVal c1, []) else none
  | c1 :: c2 :: rest =>
    if c1.isDigit then
      if c2.isDigit ∧ lo ≤ charVal c1 * 10 + charVal c2 ∧ charVal c1 * 10 + charVal c2 ≤ hi then
        some (charVal c1 * 10 + charVal c2, rest)
      else if lo ≤ charVal c1 ∧ charVal c1 ≤ hi then some (charVal c1, c2 :: rest)
      else none
    else none

/-- A literal character of the format string. -/
def parseLit (c : Char) : List Char → Option (List Char)
  | [] => none
  | c1 :: rest => if c1 = c then some rest else none

/-- Whitespace in a strptime format matches one or more whitespace
characters. -/
def parseSpaces (cs : List Char) : Option (List Char) :=
  match cs with
  | c1 :: rest => if c1 = ' ' then some (rest.dropWhile (fun c => c = ' ')) else none
  | [] => none

/-- A four-digit `%Y` field. -/
def parseYear (cs : List Char) : Option (Nat × List Char) :=
  match cs with
  | c1 :: c2 :: c3 :: c4 :: rest =>
    match parse4 c1 c2 c3 c4 with
    | some y => some (y, rest)
    | none => none
  | _ => none

/-- Python `datetime.strptime(s, "%Y-%m-%d %H:%M")`: the whole string
must be consumed, and the parsed values must form a constructible
datetime. -/
def strptimeYmdHM (s : String) : Option DateTime :=
  match parseYear s.toList with
  | none => none
  | some (y, r1) =>
    match parseLit '-' r1 with
    | none => none
    | some r2 =>
      match parseField 1 12 r2 with
      | none => none
      | some (mo, r3) =>
        match parseLit '-' r3 with
        | none => none
        | some r4 =>
          match parseField 1 31 r4 with
          | none => none
          | some (da, r5) =>
            match parseSpaces r5 with
            | none => none
            | some r6 =>
              match parseField 0 23 r6 with
              | none => none
              | some (h, r7) =>
                match parseLit ':' r7 with
                | none => none
                | some r8 =>
                  match parseField 0 59 r8 with
                  | none => none
                  | some (mi, r9) =>
                    if r9 = [] then mkDateTime y mo da h mi 0 else none

/-! ## Python string helpers

`str.strip()` and `str.lower()` modelled at the character level (ASCII
case mapping — the inputs the service lower-cases are email addresses). -/

def pyCharLower (c : Char) : Char :=
  if 'A' ≤ c ∧ c ≤ 'Z' then Char.ofNat (c.toNat + 32) else c

/-- Python `str.lower()`. -/
def pyLower (s : String) : String := String.mk (s.toList.map pyCharLower)

/-- Python `str.strip()`: drop leading and trailing whitespace. -/
def pyStrip (s : String) : String :=
  String.mk (((s.toList.dropWhile Char.isWhitespace).reverse.dropWhile
    Char.isWhitespace).reverse)

/-- Python `str.split(sep)` for a one-character separator: maximal runs
between separator occurrences, keeping empty runs. -/
def splitOnChar (sep : Char) : List Char → List (List Char)
  | [] => [[]]
  | c :: cs =>
    if c = sep then [] :: splitOnChar sep cs
    else
      match splitOnChar sep cs with
      | [] => [[c]]
      | g :: gs => (c :: g) :: gs

/-! ## Parsing floats

Model of Python's builtin `float()` restricted to plain decimal
literals (an optional sign, an integer part and/or a fractional part):
the shapes geo inputs take. The value is kept exactly as the signed
numerator over a power-of-ten denominator; the service never computes
with coordinates, it only stores and serializes them. -/

structure PyFloat where
  num : Int
  den : Nat
deriving DecidableEq, Repr

def digitsToNat (cs : List Char) : Nat :=
  cs.foldl (fun n c => n * 10 + charVal c) 0

def pyFloat (s : String) : Option PyFloat :=
  let cs := s.toList
  let signAndRest : Int × List Char :=
    match cs with
    | '-' :: rest => (-1, rest)
    | '+' :: rest => (1, rest)
    | _ => (1, cs)
  let sign := signAndRest.1
  let body := signAndRest.2
  let ip := body.takeWhile (fun c => c ≠ '.')
  let rest := body.dropWhile (fun c => c ≠ '.')
  if ip.all Char.isDigit then
    match rest with
    | [] =>
      if ip ≠ [] then some ⟨sign * digitsToNat ip, 1⟩ else none
    | '.' :: fp =>
      if fp.all Char.isDigit ∧ (ip ≠ [] ∨ fp ≠ []) then
        some ⟨sign * (digitsToNat ip * 10 ^ fp.length + digitsToNat fp), 10 ^ fp.length⟩
      else none
    | _ => none
  else none

/-! ## Data model

A raw record as decoded from the JSON array in the blob: `media` entries
are either bare URL strings (old schema) or url/description objects, the
`datetime` field is an ISO string, and `display_datetime` may or may not
have been persisted. Absent optional keys are `none`. -/

structure MediaItem where
  url : String
  description : String
deriving DecidableEq, Repr

/-- A media entry as stored: a bare string (old shape) or an object. -/
abbrev RawMedia := String ⊕ MediaItem

structure RawPost where
  id : String
  city : Option String
  datetime : String
  text : Option String
  media : Option (List RawMedia)
  display_datetime : Option String
  latitude : Option PyFloat
  longitude : Option PyFloat
deriving DecidableEq, Repr

/-- A post as held in memory after `get_posts`: datetime parsed, media
normalized, display text derived. -/
structure Post where
  id : String
  city : Option String
  datetime : DateTime
  text : Option String
  media : Option (List MediaItem)
  display_datetime : String
  latitude : Option PyFloat
  longitude : Option PyFloat
deriving DecidableEq, Repr

/-- The two JSON documents of the service, each `none` when the backing
blob does not exist. -/
structure Store where
  posts : Option (List RawPost)
  subscribers : Option (List String)
deriving DecidableEq, Repr

/-! ## French display text (`format_datetime_fr`, app.py lines 25-47) -/

def MONTHS_FR : List String :=
  ["janvier", "février", "mars", "avril", "mai", "juin", "juillet",
    "août", "septembre", "octobre", "novembre", "décembre"]

def format_datetime_fr (dt : DateTime) : String :=
  "Le " ++ toString dt.day ++ " " ++ ((MONTHS_FR.getD (dt.month - 1) "").capitalize)
    ++ " " ++ toString dt.year ++ " à " ++ toString dt.hour ++ "h"
    ++ String.mk (pad2c dt.minute)

/-! ## Media normalization (app.py lines 62-70)

The loop turns each bare-string entry into an object and keeps object
entries as they are. `normalizeEntry` is the loop body on the stored
shape; `normItem` is the same body viewed as producing the in-memory
`MediaItem`. -/

def normalizeEntry : RawMedia → RawMedia
  | Sum.inl s => Sum.inr ⟨s, ""⟩
  | Sum.inr m => Sum.inr m

def normalizeMedia (l : List RawMedia) : List RawMedia := l.map normalizeEntry

def normItem : RawMedia → MediaItem
  | Sum.inl s => ⟨s, ""⟩
  | Sum.inr m => m

/-! ## Loading posts (`get_posts`, app.py lines 50-72) -/

/-- The per-record body of the `get_posts` loop: parse the datetime
(`fromisoformat` raises on failure, aborting the request), derive the
display text, normalize media when the key is present. -/
def normPost (r : RawPost) : Option Post :=
  match fromisoformat r.datetime with
  | none => none
  | some dt =>
    some { id := r.id, city := r.city, datetime := dt, text := r.text,
           media := r.media.map (fun l => l.map normItem),
           display_datetime := format_datetime_fr dt,
           latitude := r.latitude, longitude := r.longitude }

/-- The `get_posts` loop over the whole decoded array; `none` when one
record's datetime fails to parse (the exception aborts the request). -/
def normalizeAll : List RawPost → Option (List Post)
  | [] => some []
  | r :: rs =>
    match normPost r, normalizeAll rs with
    | some p, some ps => some (p :: ps)
    | _, _ => none

/-- Stable insertion keeping newer-first order: an element sinks past
every earlier element whose datetime is not strictly smaller, so equal
timestamps keep their insertion order — the behavior of Python's stable
`sorted(..., key=..., reverse=True)`. -/
def insertPostDesc (x : Post) : List Post → List Post
  | [] => [x]
  | y :: ys => if dtLt y.datetime x.datetime then x :: y :: ys else y :: insertPostDesc x ys

/-- `sorted(posts_data, key=lambda x: x["datetime"], reverse=True)`:
stable sort by datetime, newest first. -/
def sortByDatetimeDesc (l : List Post) : List Post :=
  l.foldl (fun acc x => insertPostDesc x acc) []

/-- `get_posts`: empty list when the blob does not exist, otherwise the
normalized records sorted by datetime descending; `none` models an
exception escaping the request. -/
def get_posts (blob : Option (List RawPost)) : Option (List Post) :=
  match blob with
  | none => some []
  | some posts_data => (normalizeAll posts_data).map sortByDatetimeDesc

/-! ## Saving posts (`save_posts`, app.py lines 75-80)

`json.dumps(posts, default=str)` writes each in-memory post back as a
record: the datetime object serializes through `str`, the derived
`display_datetime` string is a dict key like any other and is written
out, and normalized media entries are objects. -/

def postToRaw (p : Post) : RawPost :=
  { id := p.id, city := p.city, datetime := p.datetime.str, text := p.text,
    media := p.media.map (fun l => l.map Sum.inr),
    display_datetime := some p.display_datetime,
    latitude := p.latitude, longitude := p.longitude }

def save_posts (posts : List Post) : List RawPost := posts.map postToRaw

/-! ## Subscribers (`get_subscribers`, `save_subscribers`, `subscribe`) -/

/-- `get_subscribers`: empty list when the blob does not exist. -/
def get_subscribers (blob : Option (List String)) : List String :=
  match blob with
  | none => []
  | some subs => subs

inductive SubscribeResult
  | emailRequired
  | invalidEmail
  | alreadySubscribed
  | subscribed (subs : List String)
deriving DecidableEq, Repr

/-- The `/subscribe` handler (app.py lines 329-348): strip and lower-case
the input, reject an empty result, reject when there is no `@` or no `.`
in `email.split("@")[1]`, reject an email already in the list, otherwise
append and persist. -/
def subscribe (emailForm : Option String) (blob : Option (List String)) : SubscribeResult :=
  let email := pyLower (pyStrip (emailForm.getD ""))
  if email = "" then .emailRequired
  else if ¬ (email.toList.contains '@') ∨
      ¬ (((splitOnChar '@' email.toList).getD 1 []).contains '.') then .invalidEmail
  else
    let subscribers := get_subscribers blob
    if email ∈ subscribers then .alreadySubscribed
    else .subscribed (subscribers ++ [email])

/-! ## The create workflow (`add`, app.py lines 156-234)

Media upload resolution (signed-URL lists or inline file streams) is
blob-side I/O outside the posts document; its outcome is the list of
`media_items` the handler builds, which the form carries here directly.
The fresh `str(uuid.uuid4())` is a nondeterministic input, passed as a
parameter. -/

structure AddForm where
  media_items : List MediaItem
  date : Option String
  time : Option String
  city : Option String
  text : Option String
  latitude : Option String
  longitude : Option String
deriving Repr

/-- Python f-string interpolation of a possibly-missing form value:
`request.form.get` yields `None`, which formats as `"None"`. -/
def fstr : Option String → String
  | none => "None"
  | some s => s

/-- `(request.form.get(...) or "").strip()`. -/
def stripForm (v : Option String) : String := pyStrip (v.getD "")

/-- The create handler's optional-geo block (app.py lines 205-213): both
assignments run inside one `try`, latitude first, so a longitude parse
failure is swallowed only after latitude has already been set. -/
def applyGeoCreate (lat_str lng_str : String) : Option PyFloat × Option PyFloat :=
  if lat_str ≠ "" ∧ lng_str ≠ "" then
    match pyFloat lat_str with
    | none => (none, none)
    | some la =>
      match pyFloat lng_str with
      | none => (some la, none)
      | some lo => (some la, some lo)
  else (none, none)

inductive AddError
  | validationError
  | storageError
deriving DecidableEq, Repr

deriving instance DecidableEq for Except

/-- The POST branch of `add`: combine date and time through `strptime`
(a parse failure raises before anything is written), assemble the new
record, load the current posts, append and persist. The returned list is
the new blob content. -/
def addPost (newId : String) (form : AddForm) (blob : Option (List RawPost)) :
    Except AddError (List RawPost) :=
  match strptimeYmdHM (fstr form.date ++ " " ++ fstr form.time) with
  | none => .error .validationError
  | some post_datetime =>
    let geo := applyGeoCreate (stripForm form.latitude) (stripForm form.longitude)
    let new_post : RawPost :=
      { id := newId, city := form.city, datetime := post_datetime.isoformat,
        text := form.text, media := some (form.media_items.map Sum.inr),
        display_datetime := none, latitude := geo.1, longitude := geo.2 }
    match get_posts blob with
    | none => .error .storageError
    | some posts => .ok (save_posts posts ++ [new_post])

/-- The create workflow at the store level: a failed request leaves the
store as it was; a successful one overwrites the posts blob. -/
def runAdd (newId : String) (form : AddForm) (st : Store) : Store × Except AddError Unit :=
  match addPost newId form st.posts with
  | .error e => (st, .error e)
  | .ok blob => ({ st with posts := some blob }, .ok ())

/-! ## The edit workflow (`edit_post`, app.py lines 243-318) -/

structure EditForm where
  existing_media_url : List String
  existing_media_description : List String
  uploaded_media : List MediaItem
  date : Option String
  time : Option String
  city : Option String
  text : Option String
  latitude : Option String
  longitude : Option String
deriving Repr

/-- `dict(zip(existing_media_urls, existing_media_descs))` followed by a
key lookup: `zip` truncates to the shorter list and a duplicate key keeps
its last value. -/
def descriptionMapGet (urls descs : List String) (k : String) : Option String :=
  ((urls.zip descs).filter (fun pr => pr.1 = k)).getLast?.map (fun pr => pr.2)

/-- Patch one existing media item: if its URL is a key of the description
map, replace the description, otherwise leave it untouched. -/
def patchMediaItem (urls descs : List String) (m : MediaItem) : MediaItem :=
  match descriptionMapGet urls descs m.url with
  | some d => { m with description := d }
  | none => m

/-- The media phase of `edit_post`: patch descriptions of existing items,
then append the uploaded items via `post["media"].append(...)` — which
raises `KeyError` when uploads are present but the post has no media key.
(The small-file fallback branch runs only when no uploaded URLs were
supplied; its file streams are modelled as resolved into
`uploaded_media` like in the create workflow.) -/
def mediaEdit (form : EditForm) (old : Option (List MediaItem)) :
    Option (Option (List MediaItem)) :=
  let patched := old.map (fun l =>
    l.map (patchMediaItem form.existing_media_url form.existing_media_description))
  if form.uploaded_media = [] then some patched
  else
    match patched with
    | none => none
    | some l => some (some (l ++ form.uploaded_media))

/-- `next((p for p in posts if p["id"] == post_id), None)` together with
the position of the first match: the posts before it, the match, the
posts after it. -/
def splitFirst (post_id : String) : List Post → Option (List Post × Post × List Post)
  | [] => none
  | p :: ps =>
    if p.id = post_id then some ([], p, ps)
    else
      match splitFirst post_id ps with
      | none => none
      | some (pre, q, suf) => some (p :: pre, q, suf)

/-- The edit handler's optional-geo block (app.py lines 302-313): with
both inputs non-empty the two assignments run inside one `try`, latitude
first, so a latitude parse failure leaves both stored values and a
longitude parse failure leaves only the stored longitude; with either
input empty both keys are popped. -/
def applyGeoEdit (lat_str lng_str : String) (oldLat oldLng : Option PyFloat) :
    Option PyFloat × Option PyFloat :=
  if lat_str ≠ "" ∧ lng_str ≠ "" then
    match pyFloat lat_str with
    | none => (oldLat, oldLng)
    | some la =>
      match pyFloat lng_str with
      | none => (some la, oldLng)
      | some lo => (some la, some lo)
  else (none, none)

inductive EditResult
  | storageError
  | notFoundRedirect
  | mediaKeyError
  | validationError
  | saved (blob : List RawPost)
deriving DecidableEq, Repr

/-- The mutated record for the matched post: media phase already done,
scalar fields overwritten from the form (`datetime` becomes the new
isoformat string while the stale `display_datetime` derived at load time
is kept on the dict and serialized), geo fields per `applyGeoEdit`. -/
def editedRaw (form : EditForm) (dt : DateTime) (media2 : Option (List MediaItem))
    (p : Post) : RawPost :=
  let geo := applyGeoEdit (stripForm form.latitude) (stripForm form.longitude)
    p.latitude p.longitude
  { id := p.id, city := form.city, datetime := dt.isoformat, text := form.text,
    media := media2.map (fun l => l.map Sum.inr),
    display_datetime := some p.display_datetime,
    latitude := geo.1, longitude := geo.2 }

/-- The POST branch of `edit_post`: load, find the first matching post
(redirect when none), patch and append media, parse the new datetime,
overwrite scalar and geo fields, persist the whole list. -/
def editPost (post_id : String) (form : EditForm) (blob : Option (List RawPost)) :
    EditResult :=
  match get_posts blob with
  | none => .storageError
  | some posts =>
    match splitFirst post_id posts with
    | none => .notFoundRedirect
    | some (pre, p, suf) =>
      match mediaEdit form p.media with
      | none => .mediaKeyError
      | some media2 =>
        match strptimeYmdHM (fstr form.date ++ " " ++ fstr form.time) with
        | none => .validationError
        | some dt =>
          .saved (save_posts pre ++ [editedRaw form dt media2 p] ++ save_posts suf)

/-- The edit workflow at the store level: only a `.saved` outcome writes
the posts blob. -/
def runEdit (post_id : String) (form : EditForm) (st : Store) : Store × EditResult :=
  match editPost post_id form st.posts with
  | .saved blob => ({ st with posts := some blob }, .saved blob)
  | r => (st, r)

/-! ## The locations feed (`locations`, app.py lines 368-388) -/

structure LocationRec where
  lat : PyFloat
  lng : PyFloat
  city : String
  datetime : String
deriving DecidableEq, Repr

/-- The loop body: a post contributes a record exactly when both geo
fields are present; the datetime object is rendered with `isoformat`. -/
def locOf (p : Post) : Option LocationRec :=
  match p.latitude, p.longitude with
  | some la, some lo => some ⟨la, lo, p.city.getD "", p.datetime.isoformat⟩
  | _, _ => none

/-- `locations`: iterate `reversed(posts)` — ascending chronological
order — keeping geo-tagged posts. -/
def locationsOf (posts : List Post) : List LocationRec :=
  posts.reverse.filterMap locOf

def locationsRoute (blob : Option (List RawPost)) : Option (List LocationRec) :=
  (get_posts blob).map locationsOf

/-! ## Lemmas: digits and datetime string round-trip -/

theorem toNat_bounds_of_isDigit {c : Char} (h : c.isDigit = true) :
    48 ≤ c.toNat ∧ c.toNat ≤ 57 := by
  simp only [Char.isDigit, Bool.and_eq_true, decide_eq_true_eq, ge_iff_le] at h
  obtain ⟨h1, h2⟩ := h
  rw [UInt32.le_def, BitVec.le_def] at h1 h2
  exact ⟨h1, h2⟩

theorem charVal_le_of_isDigit {c : Char} (h : c.isDigit = true) : charVal c ≤ 9 := by
  have := toNat_bounds_of_isDigit h
  unfold charVal
  omega

theorem parse2_le {c1 c2 : Char} {n : Nat} (h : parse2 c1 c2 = some n) : n ≤ 99 := by
  unfold parse2 at h
  split at h
  · rename_i hc
    simp only [Bool.and_eq_true] at hc
    have b1 := charVal_le_of_isDigit hc.1
    have b2 := charVal_le_of_isDigit hc.2
    injection h with h2
    omega
  · exact absurd h (by simp)

theorem parse4_le {c1 c2 c3 c4 : Char} {n : Nat} (h : parse4 c1 c2 c3 c4 = some n) :
    n ≤ 9999 := by
  unfold parse4 at h
  split at h
  · rename_i hc
    simp only [Bool.and_eq_true] at hc
    have b1 := charVal_le_of_isDigit hc.1.1.1
    have b2 := charVal_le_of_isDigit hc.1.1.2
    have b3 := charVal_le_of_isDigit hc.1.2
    have b4 := charVal_le_of_isDigit hc.2
    injection h with h2
    omega
  · exact absurd h (by simp)

theorem parse2_pad2 {n : Nat} (h : n ≤ 99) :
    parse2 (digitChar (n / 10)) (digitChar (n % 10)) = some n := by
  have a1 : n / 10 ≤ 9 := by omega
  have a2 : n % 10 ≤ 9 := by omega
  simp only [parse2, isDigit_digitChar a1, isDigit_digitChar a2, Bool.and_self, if_true,
    charVal_digitChar a1, charVal_digitChar a2, Option.some.injEq]
  omega

theorem parse4_pad4 {n : Nat} (h : n ≤ 9999) :
    parse4 (digitChar (n / 1000)) (digitChar (n / 100 % 10)) (digitChar (n / 10 % 10))
      (digitChar (n % 10)) = some n := by
  have a1 : n / 1000 ≤ 9 := by omega
  have a2 : n / 100 % 10 ≤ 9 := by omega
  have a3 : n / 10 % 10 ≤ 9 := by omega
  have a4 : n % 10 ≤ 9 := by omega
  simp only [parse4, isDigit_digitChar a1, isDigit_digitChar a2, isDigit_digitChar a3,
    isDigit_digitChar a4, Bool.and_self, if_true, charVal_digitChar a1, charVal_digitChar a2,
    charVal_digitChar a3, charVal_digitChar a4, Option.some.injEq]
  omega

theorem daysInMonth_le (y m : Nat) : daysInMonth y m ≤ 31 := by
  unfold daysInMonth
  split
  · split <;> omega
  · split <;> omega

theorem DateTime.valid_mk {y mo da hh mi s : Nat} (c1 : 1 ≤ y) (c2 : y ≤ 9999)
    (c3 : 1 ≤ mo) (c4 : mo ≤ 12) (c5 : 1 ≤ da) (c6 : da ≤ daysInMonth y mo)
    (c7 : hh ≤ 23) (c8 : mi ≤ 59) (c9 : s ≤ 59) :
    DateTime.Valid ⟨y, mo, da, hh, mi, s⟩ :=
  ⟨c1, c2, c3, c4, c5, c6, c7, c8, c9⟩

theorem mkDateTime_some {y mo da hh mi s : Nat} {d : DateTime}
    (h : mkDateTime y mo da hh mi s = some d) :
    d = ⟨y, mo, da, hh, mi, s⟩ ∧ 1 ≤ y ∧ 1 ≤ mo ∧ mo ≤ 12 ∧ 1 ≤ da ∧
      da ≤ daysInMonth y mo := by
  unfold mkDateTime at h
  split at h
  · rename_i hc
    injection h with h2
    exact ⟨h2.symm, hc.1, hc.2.1, hc.2.2.1, hc.2.2.2.1, hc.2.2.2.2⟩
  · exact absurd h (by simp)

theorem mkDateTime_of_valid {y mo da hh mi s : Nat} (h1 : 1 ≤ y) (h3 : 1 ≤ mo)
    (h4 : mo ≤ 12) (h5 : 1 ≤ da) (h6 : da ≤ daysInMonth y mo) :
    mkDateTime y mo da hh mi s = some ⟨y, mo, da, hh, mi, s⟩ := by
  unfold mkDateTime
  rw [if_pos ⟨h1, h3, h4, h5, h6⟩]

/-- Every datetime `fromisoformat` accepts is a constructible Python
datetime with a four-digit year. -/
theorem fromisoformat_valid {s : String} {d : DateTime} (h : fromisoformat s = some d) :
    d.Valid := by
  unfold fromisoformat at h
  revert h
  generalize s.toList = cs
  intro h
  unfold parseIsoChars at h
  split at h
  · split at h
    · rename_i y mo da hy hmo hda
      have by4 := parse4_le hy
      have bmo := parse2_le hmo
      have bda := parse2_le hda
      split at h
      · obtain ⟨hd, c1, c2, c3, c4, c5⟩ := mkDateTime_some h
        subst hd
        exact DateTime.valid_mk c1 (by omega) c2 c3 c4 c5 (by omega) (by omega) (by omega)
      · rename_i rest sep h1 h2 n1 n2 rest2
        split at h
        · rename_i hh mi hhh hmi
          split at h
          · rename_i hrange
            split at h
            · obtain ⟨hd, c1, c2, c3, c4, c5⟩ := mkDateTime_some h
              subst hd
              exact DateTime.valid_mk c1 (by omega) c2 c3 c4 c5 (by omega) (by omega)
                (by omega)
            · rename_i s1 s2
              split at h
              · rename_i sv hsv
                have bs := parse2_le hsv
                split at h
                · obtain ⟨hd, c1, c2, c3, c4, c5⟩ := mkDateTime_some h
                  subst hd
                  rename_i hsle
                  exact DateTime.valid_mk c1 (by omega) c2 c3 c4 c5 (by omega) (by omega)
                    (by omega)
                · exact absurd h (by simp)
              · exact absurd h (by simp)
            · exact absurd h (by simp)
          · exact absurd h (by simp)
        · exact absurd h (by simp)
      · exact absurd h (by simp)
    · exact absurd h (by simp)
  · exact absurd h (by simp)

/-- Persisting a datetime through `str` (as `json.dumps(..., default=str)`
does) and re-parsing it with `fromisoformat` recovers the same value. -/
theorem fromisoformat_str {d : DateTime} (hv : d.Valid) :
    fromisoformat d.str = some d := by
  obtain ⟨h1, h2, h3, h4, h5, h6, h7, h8, h9⟩ := hv
  have hdm := daysInMonth_le d.year d.month
  show parseIsoChars (isoChars d ' ') = some d
  simp only [isoChars, pad4c, pad2c, List.cons_append, List.nil_append]
  simp only [parseIsoChars, parse4_pad4 h2, parse2_pad2 (by omega : d.month ≤ 99),
    parse2_pad2 (by omega : d.day ≤ 99), parse2_pad2 (by omega : d.hour ≤ 99),
    parse2_pad2 (by omega : d.minute ≤ 99), parse2_pad2 (by omega : d.second ≤ 99)]
  rw [if_pos ⟨h7, h8⟩, if_pos h9]
  exact mkDateTime_of_valid h1 h3 h4 h5 h6

/-! ## Lemmas: the stable descending sort -/

/-- Newest-first order between two posts: the later one is not strictly
newer. -/
def descRel (a b : Post) : Prop := dtLt a.datetime b.datetime = false

theorem mem_insertPostDesc {a x : Post} {l : List Post} :
    a ∈ insertPostDesc x l ↔ a = x ∨ a ∈ l := by
  induction l with
  | nil => simp [insertPostDesc]
  | cons y ys ih =>
    unfold insertPostDesc
    split
    · simp
    · simp only [List.mem_cons, ih]
      tauto

theorem insertPostDesc_pairwise {x : Post} {l : List Post}
    (h : List.Pairwise descRel l) : List.Pairwise descRel (insertPostDesc x l) := by
  induction l with
  | nil => simp [insertPostDesc, List.pairwise_cons]
  | cons y ys ih =>
    rw [List.pairwise_cons] at h
    obtain ⟨hy, hys⟩ := h
    unfold insertPostDesc
    split
    · rename_i hc
      rw [List.pairwise_cons]
      refine ⟨?_, List.pairwise_cons.mpr ⟨hy, hys⟩⟩
      intro z hz
      rcases List.mem_cons.mp hz with hz1 | hz2
      · subst hz1
        exact dtLt_asymm hc
      · unfold descRel
        cases hxz : dtLt x.datetime z.datetime with
        | false => rfl
        | true =>
          have hyz := dtLt_trans hc hxz
          rw [hy z hz2] at hyz
          exact hyz.symm
    · rename_i hc
      rw [List.pairwise_cons]
      refine ⟨?_, ih hys⟩
      intro z hz
      rcases mem_insertPostDesc.mp hz with hz1 | hz2
      · subst hz1
        simpa using hc
      · exact hy z hz2

theorem insertPostDesc_of_all {x : Post} {l : List Post}
    (h : ∀ y ∈ l, dtLt y.datetime x.datetime = false) :
    insertPostDesc x l = l ++ [x] := by
  induction l with
  | nil => rfl
  | cons y ys ih =>
    unfold insertPostDesc
    rw [if_neg, ih (fun z hz => h z (List.mem_cons_of_mem y hz))]
    · rfl
    · simp [h y (List.mem_cons_self y ys)]

/-- Inserting into a sorted list moves the new element past every element
with an equal or newer timestamp: the filter at any fixed timestamp gains
the new element at the end. -/
theorem insertPostDesc_filter {x : Post} {l : List Post} (k : DateTime)
    (h : List.Pairwise descRel l) :
    (insertPostDesc x l).filter (fun p => p.datetime == k) =
      l.filter (fun p => p.datetime == k) ++
        (if x.datetime = k then [x] else []) := by
  induction l with
  | nil =>
    unfold insertPostDesc
    simp only [List.filter_cons, List.filter_nil, beq_iff_eq]
    split <;> simp_all
  | cons y ys ih =>
    rw [List.pairwise_cons] at h
    obtain ⟨hy, hys⟩ := h
    unfold insertPostDesc
    split
    · rename_i hc
      by_cases hxk : x.datetime = k
      · subst hxk
        have hnil : (y :: ys).filter (fun p => p.datetime == x.datetime) = [] := by
          rw [List.filter_eq_nil_iff]
          intro z hz
          simp only [beq_iff_eq]
          intro hzx
          rcases List.mem_cons.mp hz with hz1 | hz2
          · subst hz1
            rw [hzx] at hc
            rw [dtLt_irrefl] at hc
            exact Bool.false_ne_true hc
          · have hr := hy z hz2
            unfold descRel at hr
            rw [hzx] at hr
            rw [hr] at hc
            exact Bool.false_ne_true hc
        rw [List.filter_cons_of_pos (by simp), hnil, if_pos rfl]
        rfl
      · rw [List.filter_cons_of_neg (by simpa using hxk), if_neg hxk, List.append_nil]
    · rename_i hc
      rw [List.filter_cons]
      split
      · rw [List.filter_cons_of_pos (by assumption), ih hys, List.cons_append]
      · rw [List.filter_cons_of_neg (by assumption), ih hys]

theorem foldl_insert_pairwise (l : List Post) (acc : List Post)
    (h : List.Pairwise descRel acc) :
    List.Pairwise descRel (l.foldl (fun a x => insertPostDesc x a) acc) := by
  induction l generalizing acc with
  | nil => exact h
  | cons z zs ih => exact ih (insertPostDesc z acc) (insertPostDesc_pairwise h)

theorem mem_foldl_insert {a : Post} (l : List Post) (acc : List Post) :
    a ∈ l.foldl (fun ac x => insertPostDesc x ac) acc ↔ a ∈ acc ∨ a ∈ l := by
  induction l generalizing acc with
  | nil => simp
  | cons z zs ih =>
    simp only [List.foldl_cons, ih, mem_insertPostDesc, List.mem_cons]
    tauto

theorem foldl_insert_of_sorted (l : List Post) (acc : List Post)
    (h : List.Pairwise descRel (acc ++ l)) :
    l.foldl (fun a x => insertPostDesc x a) acc = acc ++ l := by
  induction l generalizing acc with
  | nil => simp
  | cons z zs ih =>
    have hins : insertPostDesc z acc = acc ++ [z] := by
      refine insertPostDesc_of_all ?_
      intro y hy
      have := (List.pairwise_append.mp h).2.2 y hy z (List.mem_cons_self z zs)
      exact this
    simp only [List.foldl_cons, hins]
    have h2 : List.Pairwise descRel ((acc ++ [z]) ++ zs) := by
      rw [List.append_assoc]
      simpa using h
    rw [ih (acc ++ [z]) h2, List.append_assoc]
    rfl

theorem foldl_insert_filter (l : List Post) (acc : List Post) (k : DateTime)
    (h : List.Pairwise descRel acc) :
    (l.foldl (fun a x => insertPostDesc x a) acc).filter (fun p => p.datetime == k) =
      acc.filter (fun p => p.datetime == k) ++ l.filter (fun p => p.datetime == k) := by
  induction l generalizing acc with
  | nil => simp
  | cons z zs ih =>
    simp only [List.foldl_cons]
    rw [ih (insertPostDesc z acc) (insertPostDesc_pairwise h),
      insertPostDesc_filter k h, List.filter_cons, List.append_assoc]
    split
    · rename_i hc
      rw [if_pos (by simpa using hc)]
      rfl
    · rename_i hc
      rw [if_neg (by simpa using hc)]
      rfl

theorem sortByDatetimeDesc_pairwise (l : List Post) :
    List.Pairwise descRel (sortByDatetimeDesc l) :=
  foldl_insert_pairwise l [] (List.Pairwise.nil)

theorem mem_sortByDatetimeDesc {a : Post} (l : List Post) :
    a ∈ sortByDatetimeDesc l ↔ a ∈ l := by
  unfold sortByDatetimeDesc
  rw [mem_foldl_insert]
  simp

theorem sortByDatetimeDesc_of_sorted {l : List Post} (h : List.Pairwise descRel l) :
    sortByDatetimeDesc l = l := by
  unfold sortByDatetimeDesc
  rw [foldl_insert_of_sorted l [] (by simpa using h)]
  rfl

/-- Stability: sorting does not reorder posts that share a timestamp. -/
theorem sortByDatetimeDesc_filter (l : List Post) (k : DateTime) :
    (sortByDatetimeDesc l).filter (fun p => p.datetime == k) =
      l.filter (fun p => p.datetime == k) := by
  unfold sortByDatetimeDesc
  rw [foldl_insert_filter l [] k (List.Pairwise.nil)]
  rfl

/-! ## Lemmas: loaded posts are well-formed and re-loadable -/

/-- What `get_posts` guarantees of every post it returns: the datetime is
a constructible Python datetime, and the display text is the one derived
from it. -/
def PostWF (p : Post) : Prop :=
  p.datetime.Valid ∧ p.display_datetime = format_datetime_fr p.datetime

theorem normPost_wf {r : RawPost} {p : Post} (h : normPost r = some p) : PostWF p := by
  unfold normPost at h
  split at h
  · exact absurd h (by simp)
  · rename_i dt hdt
    injection h with h2
    subst h2
    exact ⟨fromisoformat_valid hdt, rfl⟩

theorem normalizeAll_mem_wf {rs : List RawPost} {l : List Post}
    (h : normalizeAll rs = some l) : ∀ p ∈ l, PostWF p := by
  induction rs generalizing l with
  | nil =>
    unfold normalizeAll at h
    injection h with h2
    subst h2
    intro p hp
    exact absurd hp (List.not_mem_nil p)
  | cons r rs ih =>
    unfold normalizeAll at h
    split at h
    · rename_i p0 ps0 hp0 hps0
      injection h with h2
      subst h2
      intro p hp
      rcases List.mem_cons.mp hp with hp1 | hp2
      · subst hp1
        exact normPost_wf hp0
      · exact ih hps0 p hp2
    · exact absurd h (by simp)

theorem normItem_inr (m : MediaItem) : normItem (Sum.inr m) = m := rfl

theorem map_normItem_inr (l : List MediaItem) :
    List.map normItem (List.map Sum.inr l) = l := by
  induction l with
  | nil => rfl
  | cons m ms ih => simp [normItem_inr, ih]

/-- A post that `get_posts` produced re-loads to itself: the `str`-printed
datetime reparses, media objects are fixed by normalization, and the
display text is re-derived to the same string. -/
theorem normPost_postToRaw {p : Post} (h : PostWF p) : normPost (postToRaw p) = some p := by
  obtain ⟨hv, hd⟩ := h
  have hmedia : (p.media.map (fun l => List.map Sum.inr l)).map
      (fun l => List.map normItem l) = p.media := by
    cases p.media with
    | none => rfl
    | some l => simp [map_normItem_inr l]
  unfold normPost postToRaw
  simp only [fromisoformat_str hv, hmedia, Option.some.injEq]
  cases p
  simp only at hd ⊢
  rw [hd]

theorem normalizeAll_save {l : List Post} (h : ∀ p ∈ l, PostWF p) :
    normalizeAll (save_posts l) = some l := by
  induction l with
  | nil => rfl
  | cons p ps ih =>
    show normalizeAll (postToRaw p :: save_posts ps) = some (p :: ps)
    unfold normalizeAll
    rw [normPost_postToRaw (h p (List.mem_cons_self p ps)),
      ih (fun q hq => h q (List.mem_cons_of_mem p hq))]

theorem get_posts_some (raws : List RawPost) :
    get_posts (some raws) = (normalizeAll raws).map sortByDatetimeDesc := rfl

theorem get_posts_some_elim {raws : List RawPost} {out : List Post}
    (h : get_posts (some raws) = some out) :
    ∃ l, normalizeAll raws = some l ∧ out = sortByDatetimeDesc l := by
  rw [get_posts_some] at h
  cases hn : normalizeAll raws with
  | none => rw [hn] at h; exact absurd h (by simp)
  | some l =>
    rw [hn] at h
    simp only [Option.map_some', Option.some.injEq] at h
    exact ⟨l, rfl, h.symm⟩

theorem get_posts_mem_wf {raws : List RawPost} {out : List Post}
    (h : get_posts (some raws) = some out) : ∀ p ∈ out, PostWF p := by
  obtain ⟨l, hn, hs⟩ := get_posts_some_elim h
  intro p hp
  subst hs
  exact normalizeAll_mem_wf hn p ((mem_sortByDatetimeDesc l).mp hp)

theorem get_posts_sorted {raws : List RawPost} {out : List Post}
    (h : get_posts (some raws) = some out) : List.Pairwise descRel out := by
  obtain ⟨l, hn, hs⟩ := get_posts_some_elim h
  subst hs
  exact sortByDatetimeDesc_pairwise l

/-- Re-loading what was just saved from a load gives back the same posts. -/
theorem get_posts_save_posts {posts : List Post} (hwf : ∀ p ∈ posts, PostWF p)
    (hsorted : List.Pairwise descRel posts) :
    get_posts (some (save_posts posts)) = some posts := by
  rw [get_posts_some, normalizeAll_save hwf]
  simp only [Option.map_some', Option.some.injEq]
  exact sortByDatetimeDesc_of_sorted hsorted

/-! ## Sample records used by concrete witnesses -/

/-- A stored record as an old client might have written it: bare-string
media, no display text persisted. -/
def sampleRaw1 : RawPost :=
  { id := "p1", city := some "Paris", datetime := "2024-05-01T10:00:00",
    text := some "Arrived", media := some [Sum.inl "http://x/a.jpg"],
    display_datetime := none, latitude := none, longitude := none }

/-- The post `get_posts` produces from `sampleRaw1`. -/
def samplePost1 : Post :=
  { id := "p1", city := some "Paris", datetime := ⟨2024, 5, 1, 10, 0, 0⟩,
    text := some "Arrived", media := some [⟨"http://x/a.jpg", ""⟩],
    display_datetime := "Le 1 Mai 2024 à 10h00", latitude := none, longitude := none }

/-! ## Claim C5 -/

/-- C5: for both collections, a load against a missing backing blob
yields an empty sequence rather than an error. -/
theorem claim5_load_missing_blob_empty :
    get_posts none = some [] ∧ get_subscribers none = [] :=
  ⟨rfl, rfl⟩

/-! ## Claim C4 -/

/-- C4: the media normalization applied on every read is idempotent, and
a bare-string entry such as `"http://x/a.jpg"` normalizes to the record
with that url and an empty description. -/
theorem claim4_normalization_idempotent :
    (∀ l : List RawMedia, normalizeMedia (normalizeMedia l) = normalizeMedia l) ∧
      normalizeEntry (Sum.inl "http://x/a.jpg") =
        Sum.inr { url := "http://x/a.jpg", description := "" } := by
  refine ⟨?_, rfl⟩
  intro l
  induction l with
  | nil => rfl
  | cons x xs ih =>
    show normalizeEntry (normalizeEntry x) :: normalizeMedia (normalizeMedia xs) =
      normalizeEntry x :: normalizeMedia xs
    rw [ih]
    cases x <;> rfl

/-! ## Claim C2 -/

/-- C2 counterexample: the derived display text IS stored in the
persisted document. Loading a record persisted without a
`display_datetime` key and saving the result writes the derived string
into the blob (`save_posts` serializes every key of the in-memory dict,
and `get_posts` put `display_datetime` there). -/
theorem claim2_display_text_is_persisted :
    (get_posts (some [sampleRaw1])).map
        (fun posts => (save_posts posts).map RawPost.display_datetime) =
      some [some "Le 1 Mai 2024 à 10h00"] := by
  decide

/-- C2 (amended): `save(load())` is a fixed point — for every stored
collection that loads successfully, saving the loaded posts and loading
again yields exactly the same posts. (The derived display text, however,
is recomputed at read time and written back by the save; it does not
change the loaded content.) -/
theorem claim2_save_load_fixed_point (raws : List RawPost) (posts : List Post)
    (h : get_posts (some raws) = some posts) :
    get_posts (some (save_posts posts)) = some posts :=
  get_posts_save_posts (get_posts_mem_wf h) (get_posts_sorted h)

theorem claim2_save_load_fixed_point_witness :
    get_posts (some [sampleRaw1]) = some [samplePost1] ∧
      get_posts (some (save_posts [samplePost1])) = some [samplePost1] :=
  ⟨by decide, claim2_save_load_fixed_point [sampleRaw1] [samplePost1] (by decide)⟩

/-! ## Claim C3 -/

/-- C3: with `l` the decoded records in stored (insertion) order and
`out` what `list()` returns, posts with distinct timestamps appear in
strictly descending timestamp order — `out` places `P2` before `P1`
exactly when `P2.datetime > P1.datetime` — and the posts sharing any
fixed timestamp appear in `out` in their insertion order. -/
theorem claim3_list_order (raws : List RawPost) (l out : List Post)
    (hn : normalizeAll raws = some l)
    (h : get_posts (some raws) = some out) :
    (∀ i j (hi : i < out.length) (hj : j < out.length),
        (out.get ⟨i, hi⟩).datetime ≠ (out.get ⟨j, hj⟩).datetime →
          (i < j ↔ dtLt (out.get ⟨j, hj⟩).datetime (out.get ⟨i, hi⟩).datetime = true)) ∧
      (∀ k : DateTime,
        out.filter (fun p => p.datetime == k) = l.filter (fun p => p.datetime == k)) := by
  obtain ⟨l2, hn2, hs⟩ := get_posts_some_elim h
  rw [hn] at hn2
  injection hn2 with hl
  subst hl
  subst hs
  constructor
  · have hsorted := sortByDatetimeDesc_pairwise l
    rw [List.pairwise_iff_get] at hsorted
    intro i j hi hj hne
    constructor
    · intro hij
      have hd := hsorted ⟨i, hi⟩ ⟨j, hj⟩ hij
      unfold descRel at hd
      rcases dtLt_connex hne with hc | hc
      · rw [hd] at hc
        exact absurd hc (by simp)
      · exact hc
    · intro hlt
      by_contra hnij
      rcases Nat.lt_or_ge j i with hji | hji
      · have hd := hsorted ⟨j, hj⟩ ⟨i, hi⟩ hji
        unfold descRel at hd
        rw [hd] at hlt
        exact absurd hlt (by simp)
      · have hij : i = j := by omega
        subst hij
        exact hne rfl
  · intro k
    exact sortByDatetimeDesc_filter l k

def rawA : RawPost :=
  { id := "a", city := none, datetime := "2024-05-01T09:00:00", text := none,
    media := none, display_datetime := none, latitude := none, longitude := none }

def rawB : RawPost :=
  { id := "b", city := none, datetime := "2024-05-02T10:00:00", text := none,
    media := none, display_datetime := none, latitude := none, longitude := none }

def rawC : RawPost :=
  { id := "c", city := none, datetime := "2024-05-01T09:00:00", text := none,
    media := none, display_datetime := none, latitude := none, longitude := none }

def postA : Post :=
  { id := "a", city := none, datetime := ⟨2024, 5, 1, 9, 0, 0⟩, text := none,
    media := none, display_datetime := "Le 1 Mai 2024 à 9h00",
    latitude := none, longitude := none }

def postB : Post :=
  { id := "b", city := none, datetime := ⟨2024, 5, 2, 10, 0, 0⟩, text := none,
    media := none, display_datetime := "Le 2 Mai 2024 à 10h00",
    latitude := none, longitude := none }

def postC : Post :=
  { id := "c", city := none, datetime := ⟨2024, 5, 1, 9, 0, 0⟩, text := none,
    media := none, display_datetime := "Le 1 Mai 2024 à 9h00",
    latitude := none, longitude := none }

theorem claim3_list_order_witness :
    normalizeAll [rawA, rawB, rawC] = some [postA, postB, postC] ∧
      get_posts (some [rawA, rawB, rawC]) = some [postB, postA, postC] ∧
      ((∀ i j (hi : i < [postB, postA, postC].length) (hj : j < [postB, postA, postC].length),
          ([postB, postA, postC].get ⟨i, hi⟩).datetime ≠
              ([postB, postA, postC].get ⟨j, hj⟩).datetime →
            (i < j ↔ dtLt ([postB, postA, postC].get ⟨j, hj⟩).datetime
              ([postB, postA, postC].get ⟨i, hi⟩).datetime = true)) ∧
        (∀ k : DateTime,
          [postB, postA, postC].filter (fun p => p.datetime == k) =
            [postA, postB, postC].filter (fun p => p.datetime == k))) :=
  ⟨by decide, by decide,
    claim3_list_order [rawA, rawB, rawC] [postA, postB, postC] [postB, postA, postC]
      (by decide) (by decide)⟩

/-! ## Claim C9 -/

/-- C9: `locations()` is the exact reverse of the `list()` order restricted
to the same posts; a post contributes a `(lat, lng, city, datetime)` record
exactly when both geo fields are present (posts lacking either are
excluded); and the geo-tagged posts, in the order `locations()` walks
them, are in ascending chronological order. -/
theorem claim9_locations (raws : List RawPost) (out : List Post)
    (h : get_posts (some raws) = some out) :
    locationsOf out = (out.filterMap locOf).reverse ∧
      (∀ p : Post, ((p.latitude = none ∨ p.longitude = none) → locOf p = none) ∧
        (∀ la lo, p.latitude = some la → p.longitude = some lo →
          locOf p = some ⟨la, lo, p.city.getD "", p.datetime.isoformat⟩)) ∧
      List.Pairwise (fun a b : Post => dtLt b.datetime a.datetime = false)
        ((out.filter (fun p => p.latitude.isSome && p.longitude.isSome)).reverse) := by
  refine ⟨?_, ?_, ?_⟩
  · unfold locationsOf
    exact List.filterMap_reverse locOf out
  · intro p
    constructor
    · intro hg
      unfold locOf
      rcases hg with hg | hg
      · rw [hg]
      · rw [hg]
        cases p.latitude <;> rfl
    · intro la lo h1 h2
      unfold locOf
      rw [h1, h2]
  · have hsorted := get_posts_sorted h
    rw [List.pairwise_reverse]
    exact (hsorted.filter (fun p => p.latitude.isSome && p.longitude.isSome)).imp
      (fun hab => hab)

def rawG1 : RawPost :=
  { id := "g1", city := some "Paris", datetime := "2024-05-01T09:00:00", text := none,
    media := none, display_datetime := none,
    latitude := some ⟨4885, 100⟩, longitude := some ⟨235, 100⟩ }

def rawG2 : RawPost :=
  { id := "g2", city := some "Lyon", datetime := "2024-05-02T10:00:00", text := none,
    media := none, display_datetime := none, latitude := none, longitude := none }

def rawG3 : RawPost :=
  { id := "g3", city := some "Nice", datetime := "2024-05-03T11:00:00", text := none,
    media := none, display_datetime := none,
    latitude := some ⟨4370, 100⟩, longitude := some ⟨726, 100⟩ }

def postG1 : Post :=
  { id := "g1", city := some "Paris", datetime := ⟨2024, 5, 1, 9, 0, 0⟩, text := none,
    media := none, display_datetime := "Le 1 Mai 2024 à 9h00",
    latitude := some ⟨4885, 100⟩, longitude := some ⟨235, 100⟩ }

def postG2 : Post :=
  { id := "g2", city := some "Lyon", datetime := ⟨2024, 5, 2, 10, 0, 0⟩, text := none,
    media := none, display_datetime := "Le 2 Mai 2024 à 10h00",
    latitude := none, longitude := none }

def postG3 : Post :=
  { id := "g3", city := some "Nice", datetime := ⟨2024, 5, 3, 11, 0, 0⟩, text := none,
    media := none, display_datetime := "Le 3 Mai 2024 à 11h00",
    latitude := some ⟨4370, 100⟩, longitude := some ⟨726, 100⟩ }

theorem claim9_locations_witness :
    get_posts (some [rawG1, rawG2, rawG3]) = some [postG3, postG2, postG1] ∧
      (locationsOf [postG3, postG2, postG1] =
          ([postG3, postG2, postG1].filterMap locOf).reverse ∧
        (∀ p : Post, ((p.latitude = none ∨ p.longitude = none) → locOf p = none) ∧
          (∀ la lo, p.latitude = some la → p.longitude = some lo →
            locOf p = some ⟨la, lo, p.city.getD "", p.datetime.isoformat⟩)) ∧
        List.Pairwise (fun a b : Post => dtLt b.datetime a.datetime = false)
          (([postG3, postG2, postG1].filter
            (fun p => p.latitude.isSome && p.longitude.isSome)).reverse)) ∧
      locationsOf [postG3, postG2, postG1] =
        [⟨⟨4885, 100⟩, ⟨235, 100⟩, "Paris", "2024-05-01T09:00:00"⟩,
          ⟨⟨4370, 100⟩, ⟨726, 100⟩, "Nice", "2024-05-03T11:00:00"⟩] :=
  ⟨by decide,
    claim9_locations [rawG1, rawG2, rawG3] [postG3, postG2, postG1] (by decide),
    by decide⟩

/-! ## Claim C6 -/

theorem parseYear_suffix {cs : List Char} {y : Nat} {r : List Char}
    (h : parseYear cs = some (y, r)) : ∃ pre, cs = pre ++ r := by
  unfold parseYear at h
  split at h
  · rename_i c1 c2 c3 c4 rest
    split at h
    · injection h with h2
      injection h2 with hv hr
      subst hr
      exact ⟨[c1, c2, c3, c4], rfl⟩
    · exact absurd h (by simp)
  · exact absurd h (by simp)

theorem parseLit_suffix {c : Char} {cs r : List Char} (h : parseLit c cs = some r) :
    ∃ pre, cs = pre ++ r := by
  unfold parseLit at h
  split at h
  · exact absurd h (by simp)
  · rename_i c1 rest
    split at h
    · injection h with h2
      subst h2
      exact ⟨[c1], rfl⟩
    · exact absurd h (by simp)

theorem parseField_suffix {lo hi : Nat} {cs r : List Char} {v : Nat}
    (h : parseField lo hi cs = some (v, r)) : ∃ pre, cs = pre ++ r := by
  unfold parseField at h
  split at h
  · exact absurd h (by simp)
  · rename_i c1
    split at h
    · injection h with h2
      injection h2 with hv hr
      subst hr
      exact ⟨[c1], rfl⟩
    · exact absurd h (by simp)
  · rename_i c1 c2 rest
    split at h
    · split at h
      · injection h with h2
        injection h2 with hv hr
        subst hr
        exact ⟨[c1, c2], rfl⟩
      · split at h
        · injection h with h2
          injection h2 with hv hr
          subst hr
          exact ⟨[c1], rfl⟩
        · exact absurd h (by simp)
    · exact absurd h (by simp)

theorem parseSpaces_suffix {cs r : List Char} (h : parseSpaces cs = some r) :
    ∃ pre, cs = pre ++ r := by
  unfold parseSpaces at h
  split at h
  · rename_i c1 rest
    split at h
    · injection h with h2
      refine ⟨c1 :: rest.takeWhile (fun c => c = ' '), ?_⟩
      rw [← h2, List.cons_append, List.takeWhile_append_dropWhile]
    · exact absurd h (by simp)
  · exact absurd h (by simp)

/-- A field that consumes its whole input ends the input with a digit. -/
theorem parseField_last_digit {lo hi : Nat} {cs : List Char} {v : Nat}
    (h : parseField lo hi cs = some (v, [])) :
    ∃ c, cs.getLast? = some c ∧ c.isDigit = true := by
  unfold parseField at h
  split at h
  · exact absurd h (by simp)
  · rename_i c1
    split at h
    · rename_i hc
      exact ⟨c1, rfl, hc.1⟩
    · exact absurd h (by simp)
  · rename_i c1 c2 rest
    split at h
    · rename_i hd1
      split at h
      · rename_i hc
        injection h with h2
        injection h2 with hv hr
        subst hr
        exact ⟨c2, rfl, hc.1⟩
      · split at h
        · injection h with h2
          injection h2 with hv hr
          exact absurd hr (by simp)
        · exact absurd h (by simp)
    · exact absurd h (by simp)

/-- `strptime` with format `%Y-%m-%d %H:%M` only accepts strings ending
in a digit (the last minute digit): nothing may follow the minute field. -/
theorem strptime_some_last_digit {s : String} {d : DateTime}
    (h : strptimeYmdHM s = some d) :
    ∃ c, s.toList.getLast? = some c ∧ c.isDigit = true := by
  unfold strptimeYmdHM at h
  split at h
  · exact absurd h (by simp)
  · rename_i y r1 hy
    split at h
    · exact absurd h (by simp)
    · rename_i r2 h1
      split at h
      · exact absurd h (by simp)
      · rename_i mo r3 h2
        split at h
        · exact absurd h (by simp)
        · rename_i r4 h3
          split at h
          · exact absurd h (by simp)
          · rename_i da r5 h4
            split at h
            · exact absurd h (by simp)
            · rename_i r6 h5
              split at h
              · exact absurd h (by simp)
              · rename_i hh r7 h6
                split at h
                · exact absurd h (by simp)
                · rename_i r8 h7
                  split at h
                  · exact absurd h (by simp)
                  · rename_i mi r9 h8
                    split at h
                    · rename_i hr9
                      subst hr9
                      obtain ⟨c, hlast, hdig⟩ := parseField_last_digit h8
                      obtain ⟨p8, hp8⟩ := parseLit_suffix h7
                      obtain ⟨p7, hp7⟩ := parseField_suffix h6
                      obtain ⟨p6, hp6⟩ := parseSpaces_suffix h5
                      obtain ⟨p5, hp5⟩ := parseField_suffix h4
                      obtain ⟨p4, hp4⟩ := parseLit_suffix h3
                      obtain ⟨p3, hp3⟩ := parseField_suffix h2
                      obtain ⟨p2, hp2⟩ := parseLit_suffix h1
                      obtain ⟨p1, hp1⟩ := parseYear_suffix hy
                      have hr8ne : r8 ≠ [] := by
                        intro hnil
                        rw [hnil] at hlast
                        exact absurd hlast (by simp)
                      refine ⟨c, ?_, hdig⟩
                      rw [hp1, hp2, hp3, hp4, hp5, hp6, hp7, hp8]
                      rw [List.getLast?_append, List.getLast?_append,
                        List.getLast?_append, List.getLast?_append,
                        List.getLast?_append, List.getLast?_append,
                        List.getLast?_append, List.getLast?_append, hlast]
                      rfl
                    · exact absurd h (by simp)

/-- A missing date input interpolates as `"None"`, which `%Y` rejects. -/
theorem strptime_missing_date (t : String) :
    strptimeYmdHM (fstr none ++ " " ++ t) = none := by
  unfold strptimeYmdHM
  have hl : (fstr none ++ " " ++ t).toList = 'N' :: 'o' :: 'n' :: 'e' :: ' ' :: t.data := by
    show ((fstr none ++ " ") ++ t).data = 'N' :: 'o' :: 'n' :: 'e' :: ' ' :: t.data
    rw [String.data_append]
    rfl
  rw [hl]
  rfl

/-- A missing time input interpolates as `"None"`, so the combined string
ends in `'e'` and cannot parse. -/
theorem strptime_missing_time (dstr : String) :
    strptimeYmdHM (dstr ++ " " ++ fstr none) = none := by
  cases h : strptimeYmdHM (dstr ++ " " ++ fstr none) with
  | none => rfl
  | some d =>
    exfalso
    obtain ⟨c, hlast, hdig⟩ := strptime_some_last_digit h
    have he : (dstr ++ " " ++ fstr none).toList.getLast? = some 'e' := by
      show ((dstr ++ " ") ++ fstr none).data.getLast? = some 'e'
      rw [String.data_append, List.getLast?_append]
      rfl
    rw [he] at hlast
    injection hlast with hc
    subst hc
    exact absurd hdig (by decide)

/-- C6: the create workflow combines the separate date and time inputs
through `strptime("%Y-%m-%d %H:%M")`; whenever the date or the time
input is missing, or the combined string does not parse, the request
fails with the validation error and the stored collection is unchanged
(no write happens). -/
theorem claim6_create_validation (newId : String) (form : AddForm) (st : Store)
    (h : form.date = none ∨ form.time = none ∨
      strptimeYmdHM (fstr form.date ++ " " ++ fstr form.time) = none) :
    runAdd newId form st = (st, Except.error AddError.validationError) := by
  have hp : strptimeYmdHM (fstr form.date ++ " " ++ fstr form.time) = none := by
    rcases h with h | h | h
    · rw [h]
      exact strptime_missing_date (fstr form.time)
    · rw [h]
      exact strptime_missing_time (fstr form.date)
    · exact h
  unfold runAdd addPost
  rw [hp]

theorem claim6_create_validation_witness :
    ((some "2024-05-01" : Option String) = none ∨ (none : Option String) = none ∨
        strptimeYmdHM (fstr (some "2024-05-01") ++ " " ++ fstr none) = none) ∧
      runAdd "id1"
        { media_items := [], date := some "2024-05-01", time := none,
          city := some "Paris", text := none, latitude := none, longitude := none }
        { posts := some [sampleRaw1], subscribers := some [] } =
      ({ posts := some [sampleRaw1], subscribers := some [] },
        Except.error AddError.validationError) :=
  ⟨Or.inr (Or.inl rfl),
    claim6_create_validation "id1"
      { media_items := [], date := some "2024-05-01", time := none,
        city := some "Paris", text := none, latitude := none, longitude := none }
      { posts := some [sampleRaw1], subscribers := some [] }
      (Or.inr (Or.inl rfl))⟩

/-! ## Claim C7 -/

theorem splitFirst_eq_none {pid : String} {l : List Post} (h : ∀ p ∈ l, p.id ≠ pid) :
    splitFirst pid l = none := by
  induction l with
  | nil => rfl
  | cons p ps ih =>
    unfold splitFirst
    rw [if_neg (h p (List.mem_cons_self p ps)),
      ih (fun q hq => h q (List.mem_cons_of_mem p hq))]

/-- C7: an edit against an id that matches no stored post redirects (a
distinguishable not-found outcome, taken before any mutation) and
performs no write: the store is returned exactly as it was. -/
theorem claim7_update_not_found_no_write (post_id : String) (form : EditForm)
    (st : Store) (posts : List Post)
    (h : get_posts st.posts = some posts)
    (habs : ∀ p ∈ posts, p.id ≠ post_id) :
    runEdit post_id form st = (st, EditResult.notFoundRedirect) := by
  have h1 : editPost post_id form st.posts = .notFoundRedirect := by
    simp only [editPost, h, splitFirst_eq_none habs]
  simp only [runEdit, h1]

theorem claim7_update_not_found_no_write_witness :
    get_posts (some [rawA]) = some [postA] ∧
      (∀ p ∈ [postA], p.id ≠ "zzz") ∧
      runEdit "zzz"
        { existing_media_url := [], existing_media_description := [],
          uploaded_media := [], date := some "2024-06-01", time := some "10:00",
          city := some "Nice", text := none, latitude := none, longitude := none }
        { posts := some [rawA], subscribers := some [] } =
      ({ posts := some [rawA], subscribers := some [] }, EditResult.notFoundRedirect) :=
  ⟨by decide, by decide,
    claim7_update_not_found_no_write "zzz"
      { existing_media_url := [], existing_media_description := [],
        uploaded_media := [], date := some "2024-06-01", time := some "10:00",
        city := some "Nice", text := none, latitude := none, longitude := none }
      { posts := some [rawA], subscribers := some [] } [postA]
      (by decide) (by decide)⟩

/-! ## Claim C1 -/

/-- The create form of the C1 failing input: a latitude that parses and
a longitude that does not. -/
def addFormBadGeo : AddForm :=
  { media_items := [], date := some "2024-05-01", time := some "10:00",
    city := some "Paris", text := none,
    latitude := some "48.85", longitude := some "abc" }

/-- The record the create workflow persists for `addFormBadGeo`: a
latitude key with no longitude key. -/
def rawBadGeo : RawPost :=
  { id := "id1", city := some "Paris", datetime := "2024-05-01T10:00:00",
    text := none, media := some [], display_datetime := none,
    latitude := some ⟨4885, 100⟩, longitude := none }

/-- C1: the paired-geo invariant is broken by the create workflow. With
latitude `"48.85"` and longitude `"abc"`, the handler's `try` block
assigns `latitude` first and only then fails on `float("abc")`; the
swallowed exception leaves the new post with a latitude and no
longitude, and that record is persisted. -/
theorem claim1_create_geo_pair_violation :
    addPost "id1" addFormBadGeo (some []) = Except.ok [rawBadGeo] ∧
      (addPost "id1" addFormBadGeo (some [])).toOption.map
          (fun l => l.map (fun r => (r.latitude.isSome, r.longitude.isSome))) =
        some [(true, false)] := by
  constructor
  · decide
  · decide

/-! ## Claim C10 -/

def rawE : RawPost :=
  { id := "e1", city := some "Paris", datetime := "2024-05-01T10:00:00",
    text := none, media := some [], display_datetime := none,
    latitude := some ⟨485, 10⟩, longitude := some ⟨21, 10⟩ }

def postE : Post :=
  { id := "e1", city := some "Paris", datetime := ⟨2024, 5, 1, 10, 0, 0⟩,
    text := none, media := some [], display_datetime := "Le 1 Mai 2024 à 10h00",
    latitude := some ⟨485, 10⟩, longitude := some ⟨21, 10⟩ }

def editFormE : EditForm :=
  { existing_media_url := [], existing_media_description := [],
    uploaded_media := [], date := some "2024-05-02", time := some "11:30",
    city := some "Lyon", text := some "t",
    latitude := some "3.0", longitude := some "x" }

/-- What the C10 edit persists: latitude replaced by 3.0, longitude kept
at its stored 2.1 (and the display text serialized is the stale one
derived at load time from the OLD datetime). -/
def rawE2 : RawPost :=
  { id := "e1", city := some "Lyon", datetime := "2024-05-02T11:30:00",
    text := some "t", media := some [],
    display_datetime := some "Le 1 Mai 2024 à 10h00",
    latitude := some ⟨30, 10⟩, longitude := some ⟨21, 10⟩ }

/-- C10 counterexample: editing a post that stores latitude 48.5 and
longitude 2.1 with inputs latitude `"3.0"` and longitude `"x"` does NOT
leave the stored pair unchanged: the latitude is replaced by 3.0 before
`float("x")` raises, and only the longitude keeps its old value. -/
theorem claim10_edit_geo_counterexample :
    editPost "e1" editFormE (some [rawE]) = EditResult.saved [rawE2] ∧
      rawE2.latitude ≠ rawE.latitude := by
  constructor
  · decide
  · decide

/-- The record an edit persists for the matched post once the media
phase and the datetime parse are done, with the geo outcome passed in. -/
def editedWithGeo (form : EditForm) (dt : DateTime) (m2 : Option (List MediaItem))
    (p : Post) (la lo : Option PyFloat) : RawPost :=
  { id := p.id, city := form.city, datetime := dt.isoformat, text := form.text,
    media := m2.map (fun l => l.map Sum.inr),
    display_datetime := some p.display_datetime, latitude := la, longitude := lo }

/-- C10 (amended): in the edit workflow with both geo inputs non-empty,
a latitude parse failure leaves both stored values unchanged, while a
latitude that parses followed by a longitude parse failure replaces the
latitude and leaves only the longitude unchanged; in both cases every
other field of the edit is applied and the list is persisted. -/
theorem claim10_edit_geo_amended (post_id : String) (form : EditForm)
    (blob : Option (List RawPost)) (posts pre suf : List Post) (p : Post)
    (m2 : Option (List MediaItem)) (dt : DateTime)
    (h : get_posts blob = some posts)
    (hsf : splitFirst post_id posts = some (pre, p, suf))
    (hm : mediaEdit form p.media = some m2)
    (hdt : strptimeYmdHM (fstr form.date ++ " " ++ fstr form.time) = some dt)
    (hlat : stripForm form.latitude ≠ "") (hlng : stripForm form.longitude ≠ "") :
    (pyFloat (stripForm form.latitude) = none →
      editPost post_id form blob = .saved (save_posts pre ++
        [editedWithGeo form dt m2 p p.latitude p.longitude] ++ save_posts suf)) ∧
    (∀ la, pyFloat (stripForm form.latitude) = some la →
      pyFloat (stripForm form.longitude) = none →
      editPost post_id form blob = .saved (save_posts pre ++
        [editedWithGeo form dt m2 p (some la) p.longitude] ++ save_posts suf)) := by
  constructor
  · intro hla
    simp only [editPost, h, hsf, hm, hdt, editedRaw, editedWithGeo, applyGeoEdit,
      if_pos (And.intro hlat hlng), hla]
  · intro la hla hlo
    simp only [editPost, h, hsf, hm, hdt, editedRaw, editedWithGeo, applyGeoEdit,
      if_pos (And.intro hlat hlng), hla, hlo]

theorem claim10_edit_geo_amended_witness :
    get_posts (some [rawE]) = some [postE] ∧
      splitFirst "e1" [postE] = some ([], postE, []) ∧
      mediaEdit editFormE postE.media = some (some []) ∧
      strptimeYmdHM (fstr editFormE.date ++ " " ++ fstr editFormE.time) =
        some ⟨2024, 5, 2, 11, 30, 0⟩ ∧
      stripForm editFormE.latitude ≠ "" ∧ stripForm editFormE.longitude ≠ "" ∧
      ((pyFloat (stripForm editFormE.latitude) = none →
        editPost "e1" editFormE (some [rawE]) = .saved (save_posts [] ++
          [editedWithGeo editFormE ⟨2024, 5, 2, 11, 30, 0⟩ (some []) postE
            postE.latitude postE.longitude] ++ save_posts [])) ∧
      (∀ la, pyFloat (stripForm editFormE.latitude) = some la →
        pyFloat (stripForm editFormE.longitude) = none →
        editPost "e1" editFormE (some [rawE]) = .saved (save_posts [] ++
          [editedWithGeo editFormE ⟨2024, 5, 2, 11, 30, 0⟩ (some []) postE
            (some la) postE.longitude] ++ save_posts []))) :=
  ⟨by decide, by decide, by decide, by decide, by decide, by decide,
    claim10_edit_geo_amended "e1" editFormE (some [rawE]) [postE] [] [] postE
      (some []) ⟨2024, 5, 2, 11, 30, 0⟩ (by decide) (by decide) (by decide)
      (by decide) (by decide) (by decide)⟩

/-! ## Claim C8 -/

/-- The first group a split produces is the prefix before the first
separator occurrence. -/
theorem splitOnChar_head (sep : Char) (cs : List Char) :
    (splitOnChar sep cs).getD 0 [] = cs.takeWhile (fun c => c ≠ sep) := by
  induction cs with
  | nil => rfl
  | cons c cs ih =>
    by_cases hc : c = sep
    · subst hc
      conv_lhs => rw [splitOnChar]
      rw [if_pos rfl, List.getD_cons_zero, List.takeWhile_cons,
        if_neg (by simp : ¬(decide (c ≠ c) = true))]
    · conv_lhs => rw [splitOnChar]
      rw [if_neg hc, List.takeWhile_cons, if_pos (by simp [hc] : decide (c ≠ sep) = true)]
      cases hs : splitOnChar sep cs with
      | nil =>
        rw [hs] at ih
        rw [List.getD_nil] at ih
        show [c] = c :: cs.takeWhile (fun x => x ≠ sep)
        rw [← ih]
      | cons g gs =>
        rw [hs] at ih
        rw [List.getD_cons_zero] at ih
        show c :: g = c :: cs.takeWhile (fun x => x ≠ sep)
        rw [← ih]

/-- `email.split("@")[1]` is the run of characters strictly between the
first `'@'` and the next `'@'` (or the end of the string). -/
theorem splitOnChar_getD_one {sep : Char} {l : List Char}
    (h : l.contains sep = true) :
    (splitOnChar sep l).getD 1 [] =
      ((l.dropWhile (fun c => c ≠ sep)).tail).takeWhile (fun c => c ≠ sep) := by
  induction l with
  | nil => simp at h
  | cons c cs ih =>
    by_cases hc : c = sep
    · subst hc
      conv_lhs => rw [splitOnChar]
      rw [if_pos rfl, List.getD_cons_succ, List.dropWhile_cons,
        if_neg (by simp : ¬(decide (c ≠ c) = true)), List.tail_cons]
      exact splitOnChar_head c cs
    · have hcs : cs.contains sep = true := by
        rw [List.contains_cons, Bool.or_eq_true] at h
        rcases h with h3 | h3
        · exact absurd (beq_iff_eq.mp h3).symm hc
        · exact h3
      conv_lhs => rw [splitOnChar]
      rw [if_neg hc, List.dropWhile_cons, if_pos (by simp [hc] : decide (c ≠ sep) = true)]
      cases hs : splitOnChar sep cs with
      | nil =>
        have h2 := ih hcs
        rw [hs, List.getD_nil] at h2
        show ([] : List Char) = _
        exact h2
      | cons g gs =>
        have h2 := ih hcs
        rw [hs, List.getD_cons_succ] at h2
        show gs.getD 0 [] = _
        exact h2

/-- C8 counterexample: `"a@b@c.d"` is non-empty after normalization,
contains an `'@'`, has a `'.'` after it (position 5 follows position 1),
and is not yet subscribed — yet `subscribe` rejects it as invalid instead
of appending it: `"." not in email.split("@")[1]` only inspects the
characters between the first and second `'@'`. -/
theorem claim8_subscribe_counterexample :
    (pyLower (pyStrip "a@b@c.d") = "a@b@c.d" ∧
      "a@b@c.d".toList.getD 1 ' ' = '@' ∧ "a@b@c.d".toList.getD 5 ' ' = '.' ∧
      (1 : Nat) < 5 ∧ "a@b@c.d" ∉ get_subscribers (some [])) ∧
      subscribe (some "a@b@c.d") (some []) = SubscribeResult.invalidEmail := by
  constructor
  · constructor
    · decide
    · constructor
      · decide
      · constructor
        · decide
        · constructor
          · decide
          · decide
  · decide

/-- The validity test of the amended C8, spelled per the amended words:
the address contains an `'@'` and a `'.'` occurs among the characters
strictly between the first `'@'` and the following `'@'` (or the end). -/
def validEmailSpec (email : String) : Prop :=
  email.toList.contains '@' = true ∧
    (((email.toList.dropWhile (fun c => c ≠ '@')).tail).takeWhile
      (fun c => c ≠ '@')).contains '.' = true

instance (email : String) : Decidable (validEmailSpec email) := by
  unfold validEmailSpec; infer_instance

/-- C8 (amended): `subscribe` strips and lower-cases its input, fails
when the result is empty, fails when the result lacks an `'@'` or lacks
a `'.'` between the first `'@'` and the next `'@'` (or the end) — the
code's `"." not in email.split("@")[1]` — fails when the normalized
email is already subscribed (so `subscribe("A@B.com")` followed by
`subscribe("a@b.com")` fails on the second call), and otherwise appends
the normalized email and persists. -/
theorem claim8_subscribe_amended :
    (∀ (emailForm : Option String) (blob : Option (List String)),
      subscribe emailForm blob =
        (if pyLower (pyStrip (emailForm.getD "")) = "" then
          SubscribeResult.emailRequired
         else if ¬ validEmailSpec (pyLower (pyStrip (emailForm.getD ""))) then
          SubscribeResult.invalidEmail
         else if pyLower (pyStrip (emailForm.getD "")) ∈ get_subscribers blob then
          SubscribeResult.alreadySubscribed
         else
          SubscribeResult.subscribed
            (get_subscribers blob ++ [pyLower (pyStrip (emailForm.getD ""))]))) ∧
      subscribe (some "A@B.com") (some []) = SubscribeResult.subscribed ["a@b.com"] ∧
      subscribe (some "a@b.com") (some ["a@b.com"]) =
        SubscribeResult.alreadySubscribed := by
  refine ⟨?_, by decide, by decide⟩
  intro emailForm blob
  unfold subscribe validEmailSpec
  generalize pyLower (pyStrip (emailForm.getD "")) = email
  by_cases h0 : email = ""
  · rw [if_pos h0, if_pos h0]
  · rw [if_neg h0, if_neg h0]
    by_cases hat : email.toList.contains '@' = true
    · rw [splitOnChar_getD_one hat]
      by_cases hdot : (((email.toList.dropWhile (fun c => c ≠ '@')).tail).takeWhile
          (fun c => c ≠ '@')).contains '.' = true
      · have hL : ¬(¬(email.toList.contains '@' = true) ∨
            ¬((((email.toList.dropWhile (fun c => c ≠ '@')).tail).takeWhile
              (fun c => c ≠ '@')).contains '.' = true)) := by
          rintro (hx | hx)
          · exact hx hat
          · exact hx hdot
        have hR : ¬¬(email.toList.contains '@' = true ∧
            (((email.toList.dropWhile (fun c => c ≠ '@')).tail).takeWhile
              (fun c => c ≠ '@')).contains '.' = true) :=
          not_not_intro ⟨hat, hdot⟩
        rw [if_neg hL, if_neg hR]
      · have hR : ¬(email.toList.contains '@' = true ∧
            (((email.toList.dropWhile (fun c => c ≠ '@')).tail).takeWhile
              (fun c => c ≠ '@')).contains '.' = true) :=
          fun hx => hdot hx.2
        rw [if_pos (Or.inr hdot), if_pos hR]
    · have hR : ¬(email.toList.contains '@' = true ∧
          (((email.toList.dropWhile (fun c => c ≠ '@')).tail).takeWhile
            (fun c => c ≠ '@')).contains '.' = true) :=
        fun hx => hat hx.1
      rw [if_pos (Or.inl hat), if_pos hR]

end TravelFeed
